import Mathlib

/-!
Verification development for the PyKokkos `StaticTranslator`
(`pykokkos/core/translators/static.py`), the pipeline that translates an
annotated Python workload into C++ kernel source plus pybind bindings.

The translator's own code is embedded faithfully below.  External
collaborators that live outside the translated file (the member extractor
`PyKokkosMembers.extract`, the four translation visitors, `SymbolsPass`,
`generate_functor`, `bind_main` / `bind_workunits`, and the `cppast`
serializer) are treated as parameters, gathered in the `Externals`
structure, since the pipeline's control flow does not depend on their
internals.  Process termination through `sys.exit` is modelled by the
`Except Exit` result type: Python's `sys.exit()` with no argument
terminates the process with status 0, and `sys.exit(1)` with status 1.
-/

set_option autoImplicit false

namespace PkStatic

/-- Model of a Python `ast` node: an object identity plus the list of child
nodes visited by `ast.iter_child_nodes`. -/
inductive PyAst where
  | node (id : Nat) (children : List PyAst)

/-- Object identity of an AST node. -/
def astId : PyAst → Nat
  | .node i _ => i

mutual

/-- All (parent id, child id) pairs of a tree, as enumerated by
`ast.walk` + `ast.iter_child_nodes` in `add_parent_refs`.  (`ast.walk`
traverses breadth-first; the enumeration order is irrelevant here because
each assignment targets the child's identity.) -/
def astEdges : PyAst → List (Nat × Nat)
  | .node i cs => cs.map (fun c => (i, astId c)) ++ astEdgesList cs

/-- Edge enumeration over a list of subtrees. -/
def astEdgesList : List PyAst → List (Nat × Nat)
  | [] => []
  | c :: cs => astEdges c ++ astEdgesList cs

end

/-- The mutable `parent` attributes written by `add_parent_refs`, modelled
as a map from node identity to parent identity. -/
def ParentMap : Type := Nat → Option Nat

/-- One assignment `child.parent = node` (static.py line 93). -/
def assignParent (m : ParentMap) (e : Nat × Nat) : ParentMap :=
  fun k => if k = e.2 then some e.1 else m k

/-- Perform all the parent assignments of an edge list, in order. -/
def applyEdges (es : List (Nat × Nat)) (m : ParentMap) : ParentMap :=
  es.foldl assignParent m

/-- Model of `StaticTranslator.add_parent_refs` (static.py lines 83-95): walk every
node and record, for each child, a reference to its parent. -/
def addParentRefs (t : PyAst) (m : ParentMap) : ParentMap :=
  applyEdges (astEdges t) m

/-- Model of `cppast.MethodDecl`: a method signature plus an optional body
(`none` models an omitted body). -/
structure MethodDecl where
  mname : String
  params : List String
  body : Option (List String)
  deriving DecidableEq

/-- Model of `cppast.RecordDecl`: a C++ record with fields, methods and the
"is this a full definition or a forward declaration" flag. -/
structure RecordDecl where
  rname : String
  rfields : List String
  methods : List MethodDecl
  is_definition : Bool
  deriving DecidableEq

/-- Model of `PyKokkosStyles` (pykokkos.core.parsers): the style discriminator of an
entity. -/
inductive PyKokkosStyles where
  | workload
  | workunit
  | functor
  deriving DecidableEq

/-- Model of `PyKokkosEntity` (pykokkos.core.parsers): one parsed entity with its
AST, source, declared name, import alias and originating path. -/
structure PyKokkosEntity where
  name : String
  AST : PyAst
  source : List String × Nat
  path : String
  pk_import : String
  style : PyKokkosStyles

/-- Model of `PyKokkosMembers` (external member extractor): the symbol tables built
once per compilation.  The three AST dictionaries preserve insertion order,
like Python dicts, and are modelled as association lists. -/
structure PyKokkosMembers where
  pk_mains : List (String × PyAst)
  pk_workunits : List (String × PyAst)
  pk_functions : List (String × PyAst)
  views : List String
  fields : List String
  classtype_methods : List String

/-- A process exit as raised by `sys.exit`: `code` is the process exit
status (`sys.exit()` gives 0, `sys.exit(1)` gives 1). -/
structure Exit where
  code : Nat
  deriving DecidableEq

/-- The external collaborators used by `StaticTranslator`, none of which
are defined in the translated file: the member extractor, the translation
visitors (a workunit visit returns `none` when the visitor raises), the
symbols pass, the functor assembler, the two binding generators and the
`cppast` serializer. -/
structure Externals where
  extract : PyKokkosEntity → List PyKokkosEntity → PyKokkosMembers
  classtypeVisit : PyKokkosMembers → String → PyKokkosEntity → RecordDecl
  functionVisit : PyKokkosMembers → String → PyAst → MethodDecl
  workunitVisit : PyKokkosMembers → String → PyAst → Option (String × MethodDecl)
  symbolsCheck : PyKokkosMembers → String → String → PyAst → List String
  genFunctor : String → PyKokkosMembers → List (String × String × MethodDecl) →
    List MethodDecl → RecordDecl
  bindMain : String → PyKokkosMembers → (List String × Nat) → String → String → List String
  bindWorkunits : String → PyKokkosMembers → List (String × String × MethodDecl) →
    String → List String
  serialize : RecordDecl → String

/-- Model of `StaticTranslator.generate_header` (static.py lines 202-209). -/
def generate_header : String :=
  "// ******* AUTOMATICALLY GENERATED BY PyKokkos *******"

/-- Model of `StaticTranslator.generate_includes` (static.py lines 211-229). -/
def generate_includes (functor_file : String) : String :=
  let headers : List String :=
    ["pybind11/pybind11.h", "Kokkos_Core.hpp", "Kokkos_Sort.hpp",
     "fstream", "iostream", "cmath", functor_file]
  String.join (headers.map (fun h => "#include <" ++ h ++ ">\n"))

/-- One iteration of a `check_symbols` loop: extend the accumulated error
messages with the diagnostics of one body, and record that the body was
checked. -/
def symStep (check : PyAst → List String) (acc : List String × List PyAst) (a : PyAst) :
    List String × List PyAst :=
  (acc.1 ++ check a, acc.2 ++ [a])

/-- Model of `StaticTranslator.check_symbols` (static.py lines 97-123), up to the
final exit: the four accumulation loops over mains, workunits, functions
and classtype bodies.  Returns the accumulated error messages together
with the list of bodies that were checked (the body list records which
ASTs the symbols pass visited).  The `sys.exit()` that follows when the
error list is nonempty is performed by `translate` below. -/
def check_symbols (ext : Externals) (members : PyKokkosMembers) (pk_import path : String)
    (classtypes : List PyKokkosEntity) : List String × List PyAst :=
  let check := ext.symbolsCheck members pk_import path
  let acc := (members.pk_mains.map Prod.snd).foldl (symStep check) ([], [])
  let acc := (members.pk_workunits.map Prod.snd).foldl (symStep check) acc
  let acc := (members.pk_functions.map Prod.snd).foldl (symStep check) acc
  (classtypes.map PyKokkosEntity.AST).foldl (symStep check) acc

/-- The bodies the symbols pass must cover, per the spec: every workload
driver, every workunit, every helper function and every classtype body. -/
def checkedBodies (members : PyKokkosMembers) (classtypes : List PyKokkosEntity) :
    List PyAst :=
  members.pk_mains.map Prod.snd ++ members.pk_workunits.map Prod.snd ++
    members.pk_functions.map Prod.snd ++ classtypes.map PyKokkosEntity.AST

/-- Model of `StaticTranslator.translate_classtypes` (static.py lines 126-155): for
each classtype the visitor produces a full definition; the forward
declaration is `copy.deepcopy(definition)` with `is_definition = False`
(value copy in this pure embedding; the heap-level model of the aliasing
behaviour is `forwardDeclare` below).  Returns declarations followed by
definitions. -/
def ctStep (visit : PyKokkosEntity → RecordDecl) (acc : List RecordDecl × List RecordDecl)
    (c : PyKokkosEntity) : List RecordDecl × List RecordDecl :=
  let definition := visit c
  let declaration := { definition with is_definition := false }
  (acc.1 ++ [declaration], acc.2 ++ [definition])

/-- Body of `translate_classtypes` (static.py lines 134-155): accumulate
`(declarations, definitions)` over the classtypes, then return
`declarations + definitions`. -/
def translate_classtypes (ext : Externals) (members : PyKokkosMembers) (pk_import : String)
    (classtypes : List PyKokkosEntity) : List RecordDecl :=
  let pair := classtypes.foldl (ctStep (ext.classtypeVisit members pk_import)) ([], [])
  pair.1 ++ pair.2

/-- The full definitions produced by the classtype visitor, one per
classtype, in order. -/
def classtypeDefinitions (ext : Externals) (members : PyKokkosMembers) (pk_import : String)
    (classtypes : List PyKokkosEntity) : List RecordDecl :=
  classtypes.map (fun c => ext.classtypeVisit members pk_import c)

/-- The forward declarations: each full definition with only the
`is_definition` flag flipped. -/
def classtypeDeclarations (ext : Externals) (members : PyKokkosMembers) (pk_import : String)
    (classtypes : List PyKokkosEntity) : List RecordDecl :=
  (classtypeDefinitions ext members pk_import classtypes).map
    (fun d => { d with is_definition := false })

/-- Model of `StaticTranslator.translate_functions` (static.py lines 157-176). -/
def translate_functions (ext : Externals) (members : PyKokkosMembers) (pk_import : String) :
    List MethodDecl :=
  (members.pk_functions.map Prod.snd).foldl
    (fun acc f => acc ++ [ext.functionVisit members pk_import f]) []

/-- The loop of `translate_workunits` (static.py lines 193-198): visit each
workunit in turn; a visitor exception (`none`) prints a message and calls
`sys.exit(1)`.  The second component records which workunits were
attempted, in order. -/
def workunitsLoop (visit : PyAst → Option (String × MethodDecl)) :
    List (String × PyAst) → List (String × String × MethodDecl) → List String →
      Except Exit (List (String × String × MethodDecl)) × List String
  | [], acc, attempted => (Except.ok acc, attempted)
  | (n, w) :: rest, acc, attempted =>
    match visit w with
    | some r => workunitsLoop visit rest (acc ++ [(n, r.1, r.2)]) (attempted ++ [n])
    | none => (Except.error (Exit.mk 1), attempted ++ [n])

/-- Model of `StaticTranslator.translate_workunits` (static.py lines 178-200). -/
def translate_workunits (ext : Externals) (members : PyKokkosMembers) (pk_import : String) :
    Except Exit (List (String × String × MethodDecl)) × List String :=
  workunitsLoop (ext.workunitVisit members pk_import) members.pk_workunits [] []

/-- Model of `StaticTranslator.generate_bindings` (static.py lines 231-253). -/
def generate_bindings (ext : Externals) (module_file : String) (entity : PyKokkosEntity)
    (functor_name : String) (source : List String × Nat)
    (workunits : List (String × String × MethodDecl)) (members : PyKokkosMembers)
    (pk_import : String) : List String :=
  match entity.style with
  | .workload => ext.bindMain functor_name members source pk_import module_file
  | _ => ext.bindWorkunits functor_name members workunits module_file

/-- The pipeline steps of the Orchestrator state machine. -/
inductive Step where
  | linkParents
  | extractMembers
  | validateSymbols
  | translateClasstypesStep
  | translateFunctionsStep
  | translateWorkunitsStep
  | assembleFunctor
  | generateBindingsStep
  | serializeStep
  deriving DecidableEq

/-- The full linear pipeline order. -/
def pipelineOrder : List Step :=
  [.linkParents, .extractMembers, .validateSymbols, .translateClasstypesStep,
   .translateFunctionsStep, .translateWorkunitsStep, .assembleFunctor,
   .generateBindingsStep, .serializeStep]

/-- Model of the `StaticTranslator` object state: the constructor-supplied file names
plus the two per-compilation attributes assigned inside `translate`
(declared without a value in `__init__`, hence `Option`). -/
structure StaticTranslator where
  module_file : String
  functor_file : String
  pk_import : Option String := none
  pk_members : Option PyKokkosMembers := none

/-- Model of `StaticTranslator.translate` (static.py lines 37-81).  Returns the
result (the two artifacts, or the `sys.exit` the compilation died with),
the translator object state after the call, and the trace of pipeline
steps that were executed, in execution order. -/
def translate (ext : Externals) (t : StaticTranslator) (entity : PyKokkosEntity)
    (classtypes : List PyKokkosEntity) :
    Except Exit (List String × List String) × StaticTranslator × List Step :=
  let pk_import := entity.pk_import
  let parents0 := addParentRefs entity.AST (fun _ => none)
  let _parents := classtypes.foldl (fun m c => addParentRefs c.AST m) parents0
  let members := ext.extract entity classtypes
  let t' := { t with pk_import := some pk_import, pk_members := some members }
  let checked := check_symbols ext members pk_import entity.path classtypes
  match checked.1 with
  | _ :: _ => (Except.error (Exit.mk 0), t', pipelineOrder.take 3)
  | [] =>
    let source := entity.source
    let functor_name := "pk_functor_" ++ entity.name
    let cts := translate_classtypes ext members pk_import classtypes
    let functions := translate_functions ext members pk_import
    match (translate_workunits ext members pk_import).1 with
    | Except.error e => (Except.error e, t', pipelineOrder.take 6)
    | Except.ok workunits =>
      let struct := ext.genFunctor functor_name members workunits functions
      let bindings := generate_bindings ext t.module_file entity functor_name source
        workunits members pk_import
      let functor := [generate_header] ++ (cts.map ext.serialize) ++ [ext.serialize struct]
      let bindings := [generate_header, generate_includes t.functor_file] ++ bindings
      (Except.ok (functor, bindings), t', pipelineOrder)

/-- The record assembled by `generate_functor` on the successful path of a
compilation. -/
def assembledRecord (ext : Externals) (entity : PyKokkosEntity)
    (classtypes : List PyKokkosEntity) : RecordDecl :=
  let members := ext.extract entity classtypes
  let pk_import := entity.pk_import
  let workunits := match (translate_workunits ext members pk_import).1 with
    | Except.ok ws => ws
    | Except.error _ => []
  ext.genFunctor ("pk_functor_" ++ entity.name) members workunits
    (translate_functions ext members pk_import)

/-- The binding fragments produced by `generate_bindings` on the successful
path of a compilation. -/
def bindingFragments (ext : Externals) (module_file : String) (entity : PyKokkosEntity)
    (classtypes : List PyKokkosEntity) : List String :=
  let members := ext.extract entity classtypes
  let pk_import := entity.pk_import
  let workunits := match (translate_workunits ext members pk_import).1 with
    | Except.ok ws => ws
    | Except.error _ => []
  generate_bindings ext module_file entity ("pk_functor_" ++ entity.name) entity.source
    workunits members pk_import

/-- Modelled from the spec: serialization of one method by the external
`cppast.Serializer` (not part of the translated file), as a token list.  A
method with a body renders its body between braces; one without renders as
a bare signature. -/
def serializeMethod (m : MethodDecl) : List String :=
  [m.mname, "("] ++ m.params ++ [")"] ++
    (match m.body with
     | some b => ["\x7b"] ++ b ++ ["\x7d"]
     | none => [";"])

/-- Modelled from the spec: serialization of a record by the external
`cppast.Serializer` (not part of the translated file).  A record whose
`is_definition` flag is false renders as a forward declaration; one whose
flag is true renders its full member list. -/
def serializeRecord (d : RecordDecl) : List String :=
  if d.is_definition then
    ["struct", d.rname, "\x7b"] ++ d.rfields ++ d.methods.flatMap serializeMethod ++
      ["\x7d", ";"]
  else
    ["struct", d.rname, ";"]

/-- Modelled from the spec: re-parsing the signature of a serialized record
(the declared record name following the `struct` keyword). -/
def parseSignature (tokens : List String) : Option String :=
  match tokens with
  | "struct" :: n :: _ => some n
  | _ => none

/-- The forward declaration as the claim words it: the full definition with
the definition flag flipped and all method bodies omitted.  This follows
the spec's words, to be compared with what `translate_classtypes`
produces. -/
def specForwardDeclaration (d : RecordDecl) : RecordDecl :=
  { d with
    is_definition := false,
    methods := d.methods.map (fun m => { m with body := none }) }

/-! Heap-level model of the Python object semantics of
`declaration = copy.deepcopy(definition); declaration.is_definition = False`
(static.py lines 149-150).  IR nodes live in a heap addressed by `Nat`;
`copy.deepcopy` clones the reachable object graph at fresh addresses and
attribute assignment mutates one heap cell in place. -/

/-- One heap-allocated IR node: a label, the `is_definition` flag and the
addresses of its member nodes. -/
structure HeapNode where
  label : String
  is_definition : Bool
  members : List Nat
  deriving DecidableEq

/-- A heap of IR nodes; the address of a node is its index. -/
abbrev Heap : Type := List HeapNode

/-- Heap lookup. -/
def lookupNode (h : Heap) (a : Nat) : Option HeapNode :=
  h[a]?

/-- Model of `copy.deepcopy` over a list of member addresses, threading the heap;
`copyFn` clones one address (it is instantiated with `deepcopyNode` at one
less fuel). -/
def deepcopyMembers (copyFn : Heap → Nat → Option (Heap × Nat)) :
    Heap → List Nat → Option (Heap × List Nat)
  | h, [] => some (h, [])
  | h, b :: rest =>
    match copyFn h b with
    | none => none
    | some (h', b') =>
      match deepcopyMembers copyFn h' rest with
      | none => none
      | some (h'', rest') => some (h'', b' :: rest')

/-- Model of `copy.deepcopy` of the object graph rooted at one address: clone the
members first (threading the heap), then append the clone of the node
itself, whose address is returned.  `fuel` bounds the recursion depth; any
fuel larger than the root address suffices on a well-formed heap. -/
def deepcopyNode : Nat → Heap → Nat → Option (Heap × Nat)
  | 0, _, _ => none
  | fuel + 1, h, a =>
    match lookupNode h a with
    | none => none
    | some node =>
      match deepcopyMembers (deepcopyNode fuel) h node.members with
      | none => none
      | some (h', ms) => some (h' ++ [{ node with members := ms }], h'.length)

/-- The attribute assignment `obj.is_definition = v`: mutate one heap
cell in place, keeping everything else. -/
def setDefinitionFlag (h : Heap) (a : Nat) (v : Bool) : Heap :=
  match lookupNode h a with
  | none => h
  | some node => h.set a { node with is_definition := v }

/-- Lines 149-150 of static.py at the heap level:
`declaration = copy.deepcopy(definition)` then
`declaration.is_definition = False`.  Returns the mutated heap and the
address of the forward declaration. -/
def forwardDeclare (fuel : Nat) (h : Heap) (definition : Nat) : Option (Heap × Nat) :=
  match deepcopyNode fuel h definition with
  | none => none
  | some (h', decl) => some (setDefinitionFlag h' decl false, decl)

/-- Heap well-formedness: every node's members live at strictly smaller
addresses (object graphs built bottom-up; rules out cycles). -/
abbrev heapWF (h : Heap) : Prop :=
  ∀ i : Fin h.length, ∀ m ∈ (h.get i).members, m < i.val

/-- The region of a heap above address `n` is internally well-formed:
every node at an address `≥ n` has all its members in `[n, address)`. -/
def regionWF (n : Nat) (h : Heap) : Prop :=
  ∀ b node, lookupNode h b = some node → n ≤ b → ∀ m ∈ node.members, n ≤ m ∧ m < b

/-- The addresses reachable from `a` (including `a`), up to `fuel` levels
deep. -/
def reachSet : Nat → Heap → Nat → List Nat
  | 0, _, _ => []
  | fuel + 1, h, a =>
    match lookupNode h a with
    | none => [a]
    | some node => a :: node.members.flatMap (fun m => reachSet fuel h m)

/-! Concrete instances used by the witnesses. -/

/-- A leaf AST node. -/
def ast0 : PyAst := PyAst.node 0 []

/-- Another leaf AST node. -/
def ast1 : PyAst := PyAst.node 1 []

/-- A two-node AST: node 2 with child node 1. -/
def ast2 : PyAst := PyAst.node 2 [PyAst.node 1 []]

/-- A concrete method with a nonempty body. -/
def meth0 : MethodDecl := { mname := "getX", params := ["self"], body := some ["return", "x"] }

/-- A concrete classtype record produced by the classtype visitor. -/
def rec0 : RecordDecl :=
  { rname := "Point", rfields := ["x", "y"], methods := [meth0], is_definition := true }

/-- Concrete symbol tables with one main and one workunit. -/
def members0 : PyKokkosMembers :=
  { pk_mains := [("run", ast0)], pk_workunits := [("square", ast1)],
    pk_functions := [], views := ["view"], fields := [], classtype_methods := [] }

/-- A concrete workload entity. -/
def entity0 : PyKokkosEntity :=
  { name := "W", AST := ast0, source := (["class W:"], 0), path := "workload.py",
    pk_import := "pk", style := .workload }

/-- A concrete classtype entity. -/
def ct0 : PyKokkosEntity :=
  { name := "Point", AST := ast2, source := (["class Point:"], 0), path := "workload.py",
    pk_import := "pk", style := .workload }

/-- A concrete translator as constructed (`module`, `functor` file names). -/
def translator0 : StaticTranslator :=
  { module_file := "kernel_module", functor_file := "functor.hpp" }

/-- Concrete externals on which every pipeline stage succeeds. -/
def extOK : Externals :=
  { extract := fun _ _ => members0,
    classtypeVisit := fun _ _ _ => rec0,
    functionVisit := fun _ _ _ => meth0,
    workunitVisit := fun _ _ _ => some ("for", meth0),
    symbolsCheck := fun _ _ _ _ => [],
    genFunctor := fun n _ _ _ =>
      { rname := n, rfields := [], methods := [], is_definition := true },
    bindMain := fun _ _ _ _ _ => ["binding_main"],
    bindWorkunits := fun _ _ _ _ => ["binding_workunits"],
    serialize := fun r => if r.is_definition then r.rname else r.rname ++ ";" }

/-- Concrete externals whose symbols pass reports a diagnostic on every
body. -/
def extSymFail : Externals :=
  { extOK with symbolsCheck := fun _ _ _ _ => ["unresolved symbol ghost"] }

/-- Concrete externals whose workunit visitor raises on every workunit. -/
def extWuFail : Externals :=
  { extOK with workunitVisit := fun _ _ _ => none }

/-- A concrete heap: node 0 is a member of node 1 (the definition). -/
def heap0 : Heap :=
  [{ label := "member", is_definition := true, members := [] },
   { label := "Point", is_definition := true, members := [0] }]

/-! Helper lemmas about the parent-reference pass. -/

theorem applyEdges_cons (e : Nat × Nat) (es : List (Nat × Nat)) (m : ParentMap) :
    applyEdges (e :: es) m = applyEdges es (assignParent m e) := rfl

theorem applyEdges_not_mem (es : List (Nat × Nat)) (m : ParentMap) (k : Nat)
    (hk : k ∉ es.map Prod.snd) : applyEdges es m k = m k := by
  induction es generalizing m with
  | nil => rfl
  | cons e rest ih =>
    simp only [List.map_cons, List.mem_cons, not_or] at hk
    rw [applyEdges_cons, ih _ hk.2]
    simp [assignParent, hk.1]

theorem applyEdges_mem (es : List (Nat × Nat)) (m : ParentMap) (e : Nat × Nat)
    (hnd : (es.map Prod.snd).Nodup) (he : e ∈ es) : applyEdges es m e.2 = some e.1 := by
  induction es generalizing m with
  | nil => cases he
  | cons f rest ih =>
    simp only [List.map_cons, List.nodup_cons] at hnd
    rcases List.mem_cons.mp he with rfl | hmem
    · rw [applyEdges_cons, applyEdges_not_mem _ _ _ hnd.1]
      simp [assignParent]
    · rw [applyEdges_cons]
      exact ih _ hnd.2 hmem

/-! Helper lemmas about the symbol-checking accumulation. -/

theorem foldl_symStep (check : PyAst → List String) (l : List PyAst)
    (acc : List String × List PyAst) :
    l.foldl (symStep check) acc = (acc.1 ++ l.flatMap check, acc.2 ++ l) := by
  induction l generalizing acc with
  | nil => simp
  | cons a rest ih => simp [symStep, ih, List.append_assoc]

theorem check_symbols_spec (ext : Externals) (members : PyKokkosMembers)
    (pk_import path : String) (classtypes : List PyKokkosEntity) :
    check_symbols ext members pk_import path classtypes =
      ((checkedBodies members classtypes).flatMap (ext.symbolsCheck members pk_import path),
       checkedBodies members classtypes) := by
  simp [check_symbols, checkedBodies, foldl_symStep, List.append_assoc]

/-! Helper lemmas about the classtype loop. -/

theorem foldl_ctStep (visit : PyKokkosEntity → RecordDecl) (l : List PyKokkosEntity)
    (acc : List RecordDecl × List RecordDecl) :
    l.foldl (ctStep visit) acc =
      (acc.1 ++ l.map (fun c => { visit c with is_definition := false }),
       acc.2 ++ l.map visit) := by
  induction l generalizing acc with
  | nil => simp
  | cons c rest ih => simp [ctStep, ih, List.append_assoc]

theorem translate_classtypes_eq (ext : Externals) (members : PyKokkosMembers)
    (pk_import : String) (classtypes : List PyKokkosEntity) :
    translate_classtypes ext members pk_import classtypes =
      classtypeDeclarations ext members pk_import classtypes ++
        classtypeDefinitions ext members pk_import classtypes := by
  simp [translate_classtypes, foldl_ctStep, classtypeDeclarations, classtypeDefinitions]

/-! Helper lemmas about the workunit loop. -/

theorem workunitsLoop_fail (visit : PyAst → Option (String × MethodDecl))
    (pre : List (String × PyAst)) (bad : String × PyAst) (suffix : List (String × PyAst))
    (acc : List (String × String × MethodDecl)) (att : List String)
    (hpre : ∀ p ∈ pre, visit p.2 ≠ none) (hbad : visit bad.2 = none) :
    workunitsLoop visit (pre ++ bad :: suffix) acc att =
      (Except.error (Exit.mk 1), att ++ pre.map Prod.fst ++ [bad.1]) := by
  obtain ⟨bn, bw⟩ := bad
  induction pre generalizing acc att with
  | nil => simp [workunitsLoop, hbad]
  | cons p rest ih =>
    obtain ⟨pn, pw⟩ := p
    have hp : visit pw ≠ none := hpre (pn, pw) (List.mem_cons_self _ _)
    cases hv : visit pw with
    | none => exact absurd hv hp
    | some r =>
      simp only [List.cons_append, workunitsLoop, hv, List.append_eq]
      rw [ih _ _ (fun q hq => hpre q (List.mem_cons_of_mem _ hq))]
      simp [List.append_assoc]

theorem translate_workunits_fail (ext : Externals) (members : PyKokkosMembers)
    (pk_import : String) (pre : List (String × PyAst)) (bad : String × PyAst)
    (suffix : List (String × PyAst))
    (hw : members.pk_workunits = pre ++ bad :: suffix)
    (hpre : ∀ p ∈ pre, ext.workunitVisit members pk_import p.2 ≠ none)
    (hbad : ext.workunitVisit members pk_import bad.2 = none) :
    translate_workunits ext members pk_import =
      (Except.error (Exit.mk 1), pre.map Prod.fst ++ [bad.1]) := by
  rw [translate_workunits, hw, workunitsLoop_fail _ _ _ _ _ _ hpre hbad]
  simp

/-- Claim C7: the parent-link annotator is idempotent — running
`add_parent_refs` twice on the same tree assigns each node the same parent
as running it once — and after one run every syntactic child node carries
a reference to the node that contains it.  The hypothesis states that each
node occurs at most once as a child, which holds of genuine trees of
distinct `ast` objects. -/
theorem C7_add_parent_refs_idempotent (t : PyAst) (m : ParentMap)
    (hnd : ((astEdges t).map Prod.snd).Nodup) :
    addParentRefs t (addParentRefs t m) = addParentRefs t m ∧
    ∀ e ∈ astEdges t, addParentRefs t m e.2 = some e.1 := by
  constructor
  · funext k
    by_cases hk : k ∈ (astEdges t).map Prod.snd
    · obtain ⟨e, he, rfl⟩ := List.mem_map.mp hk
      rw [addParentRefs, addParentRefs, applyEdges_mem _ _ _ hnd he,
        applyEdges_mem _ _ _ hnd he]
    · rw [addParentRefs, applyEdges_not_mem _ _ _ hk]
  · intro e he
    exact applyEdges_mem _ _ _ hnd he

/-- Witness for claim C7 at the concrete two-node tree `ast2`. -/
theorem C7_witness :
    ((astEdges ast2).map Prod.snd).Nodup ∧
    (addParentRefs ast2 (addParentRefs ast2 (fun _ => none)) =
        addParentRefs ast2 (fun _ => none) ∧
      ∀ e ∈ astEdges ast2, addParentRefs ast2 (fun _ => none) e.2 = some e.1) :=
  ⟨by decide, C7_add_parent_refs_idempotent ast2 (fun _ => none) (by decide)⟩

/-- Characterization of the include block: the fixed ordered header list,
ending with the kernel artifact's own file name. -/
theorem generate_includes_spec (f : String) :
    generate_includes f =
      "#include <pybind11/pybind11.h>\n#include <Kokkos_Core.hpp>\n#include <Kokkos_Sort.hpp>\n#include <fstream>\n#include <iostream>\n#include <cmath>\n" ++
        ("#include <" ++ f ++ ">\n") := by
  have hpre : (((((("" ++ "#include <pybind11/pybind11.h>\n") ++ "#include <Kokkos_Core.hpp>\n") ++
        "#include <Kokkos_Sort.hpp>\n") ++ "#include <fstream>\n") ++ "#include <iostream>\n") ++
        "#include <cmath>\n") =
      "#include <pybind11/pybind11.h>\n#include <Kokkos_Core.hpp>\n#include <Kokkos_Sort.hpp>\n#include <fstream>\n#include <iostream>\n#include <cmath>\n" := rfl
  calc generate_includes f
      = (((((("" ++ "#include <pybind11/pybind11.h>\n") ++ "#include <Kokkos_Core.hpp>\n") ++
          "#include <Kokkos_Sort.hpp>\n") ++ "#include <fstream>\n") ++ "#include <iostream>\n") ++
          "#include <cmath>\n") ++ ("#include <" ++ f ++ ">\n") := rfl
    _ = "#include <pybind11/pybind11.h>\n#include <Kokkos_Core.hpp>\n#include <Kokkos_Sort.hpp>\n#include <fstream>\n#include <iostream>\n#include <cmath>\n" ++
          ("#include <" ++ f ++ ">\n") := by rw [hpre]

/-- Claim C8: within one compilation the symbol validator is invoked
exactly once per workload driver, once per workunit, once per helper
function and once per classtype body — the checked bodies are exactly
those four groups, in order, and nothing else. -/
theorem C8_validator_coverage (ext : Externals) (members : PyKokkosMembers)
    (pk_import path : String) (classtypes : List PyKokkosEntity) :
    (check_symbols ext members pk_import path classtypes).2 =
      checkedBodies members classtypes := by
  rw [check_symbols_spec]

/-- Claim C3: symbol diagnostics are accumulated from all bodies across
all entities and classtypes before reporting, and if at least one
diagnostic exists the whole compilation terminates (the `sys.exit()` call)
with no output artifacts produced. -/
theorem C3_symbol_errors_abort (ext : Externals) (t : StaticTranslator)
    (entity : PyKokkosEntity) (classtypes : List PyKokkosEntity) :
    (check_symbols ext (ext.extract entity classtypes) entity.pk_import entity.path
        classtypes).1 =
      (checkedBodies (ext.extract entity classtypes) classtypes).flatMap
        (ext.symbolsCheck (ext.extract entity classtypes) entity.pk_import entity.path) ∧
    ((check_symbols ext (ext.extract entity classtypes) entity.pk_import entity.path
        classtypes).1 ≠ [] →
      (translate ext t entity classtypes).1 = Except.error (Exit.mk 0)) := by
  constructor
  · rw [check_symbols_spec]
  · intro hne
    rcases hc : (check_symbols ext (ext.extract entity classtypes) entity.pk_import
        entity.path classtypes).1 with _ | ⟨e, es⟩
    · exact absurd hc hne
    · simp [translate, hc]

/-- Witness for claim C3: with a symbols pass that reports a diagnostic on
every body, the concrete compilation terminates via `sys.exit()`. -/
theorem C3_witness :
    (check_symbols extSymFail (extSymFail.extract entity0 [ct0]) entity0.pk_import
        entity0.path [ct0]).1 ≠ [] ∧
    (translate extSymFail translator0 entity0 [ct0]).1 = Except.error (Exit.mk 0) :=
  ⟨by decide,
   (C3_symbol_errors_abort extSymFail translator0 entity0 [ct0]).2 (by decide)⟩

/-- Claim C9: the two failure paths terminate with different process exit
statuses.  A symbol-validation failure exits via `sys.exit()` with no
argument, which is exit status 0, a success status; a workunit translation
fault exits via `sys.exit(1)`, exit status 1; only the latter is a nonzero
termination. -/
theorem C9_exit_status_asymmetry (ext : Externals) (t : StaticTranslator)
    (entity : PyKokkosEntity) (classtypes : List PyKokkosEntity) :
    ((check_symbols ext (ext.extract entity classtypes) entity.pk_import entity.path
        classtypes).1 ≠ [] →
      (translate ext t entity classtypes).1 = Except.error (Exit.mk 0)) ∧
    ((check_symbols ext (ext.extract entity classtypes) entity.pk_import entity.path
        classtypes).1 = [] →
      (translate_workunits ext (ext.extract entity classtypes) entity.pk_import).1 =
        Except.error (Exit.mk 1) →
      (translate ext t entity classtypes).1 = Except.error (Exit.mk 1)) ∧
    (Exit.mk 0).code = 0 ∧ (Exit.mk 1).code ≠ 0 := by
  refine ⟨?_, ?_, rfl, by decide⟩
  · intro hne
    rcases hc : (check_symbols ext (ext.extract entity classtypes) entity.pk_import
        entity.path classtypes).1 with _ | ⟨e, es⟩
    · exact absurd hc hne
    · simp [translate, hc]
  · intro hc hw
    simp [translate, hc, hw]

/-- Witness for claim C9: the two concrete failing compilations exit with
statuses 0 and 1 respectively. -/
theorem C9_witness :
    (translate extSymFail translator0 entity0 [ct0]).1 = Except.error (Exit.mk 0) ∧
    (translate extWuFail translator0 entity0 [ct0]).1 = Except.error (Exit.mk 1) :=
  ⟨(C9_exit_status_asymmetry extSymFail translator0 entity0 [ct0]).1 (by decide),
   (C9_exit_status_asymmetry extWuFail translator0 entity0 [ct0]).2.1 rfl rfl⟩

/-- Claim C2: if translating any single workunit raises, the whole
compilation is aborted immediately with nonzero termination (`sys.exit(1)`,
so no functor or binding artifact is produced), the attempted workunits
are exactly those up to and including the failing one, and nothing after
the failing workunit — whatever its length — is attempted. -/
theorem C2_workunit_failfast (ext : Externals) (t : StaticTranslator)
    (entity : PyKokkosEntity) (classtypes : List PyKokkosEntity)
    (pre : List (String × PyAst)) (bad : String × PyAst) (suffix : List (String × PyAst))
    (hw : (ext.extract entity classtypes).pk_workunits = pre ++ bad :: suffix)
    (hpre : ∀ p ∈ pre,
      ext.workunitVisit (ext.extract entity classtypes) entity.pk_import p.2 ≠ none)
    (hbad : ext.workunitVisit (ext.extract entity classtypes) entity.pk_import bad.2 = none)
    (hsym : (check_symbols ext (ext.extract entity classtypes) entity.pk_import entity.path
        classtypes).1 = []) :
    (translate ext t entity classtypes).1 = Except.error (Exit.mk 1) ∧
    (translate_workunits ext (ext.extract entity classtypes) entity.pk_import).2 =
      pre.map Prod.fst ++ [bad.1] := by
  have hfail := translate_workunits_fail ext (ext.extract entity classtypes)
    entity.pk_import pre bad suffix hw hpre hbad
  have h1 : (translate_workunits ext (ext.extract entity classtypes) entity.pk_import).1 =
      Except.error (Exit.mk 1) := by rw [hfail]
  constructor
  · simp [translate, hsym, h1]
  · rw [hfail]

/-- Witness for claim C2: the concrete compilation whose only workunit
fails exits with status 1 after attempting exactly that workunit. -/
theorem C2_witness :
    (translate extWuFail translator0 entity0 [ct0]).1 = Except.error (Exit.mk 1) ∧
    (translate_workunits extWuFail members0 "pk").2 = ["square"] :=
  C2_workunit_failfast extWuFail translator0 entity0 [ct0] [] ("square", ast1) []
    rfl (by simp) rfl rfl

/-- Claim C4: for every compilation that succeeds, the kernel source
artifact is the generator-stamp comment line first, then the serialized
classtype fragments with all forward declarations preceding all full
definitions, then the serialized fragment for the assembled record last. -/
theorem C4_kernel_artifact (ext : Externals) (t : StaticTranslator)
    (entity : PyKokkosEntity) (classtypes : List PyKokkosEntity)
    (functor bindings : List String) (t' : StaticTranslator) (tr : List Step)
    (h : translate ext t entity classtypes = (Except.ok (functor, bindings), t', tr)) :
    functor = generate_header ::
      ((classtypeDeclarations ext (ext.extract entity classtypes) entity.pk_import
          classtypes).map ext.serialize ++
       (classtypeDefinitions ext (ext.extract entity classtypes) entity.pk_import
          classtypes).map ext.serialize ++
       [ext.serialize (assembledRecord ext entity classtypes)]) := by
  rcases hc : (check_symbols ext (ext.extract entity classtypes) entity.pk_import
      entity.path classtypes).1 with _ | ⟨e, es⟩
  case cons => simp [translate, hc] at h
  case nil =>
    rcases hwres : (translate_workunits ext (ext.extract entity classtypes)
        entity.pk_import).1 with we | ws
    · simp [translate, hc, hwres] at h
    · simp only [translate, hc, hwres, Prod.mk.injEq, Except.ok.injEq] at h
      obtain ⟨⟨hF, hB⟩, -, -⟩ := h
      rw [← hF, translate_classtypes_eq, assembledRecord]
      simp [hwres, List.map_append]

/-- Witness for claim C4: the concrete successful compilation's kernel
artifact, exactly as ordered. -/
theorem C4_witness :
    ["// ******* AUTOMATICALLY GENERATED BY PyKokkos *******", "Point;", "Point",
        "pk_functor_W"] =
      generate_header ::
        ((classtypeDeclarations extOK (extOK.extract entity0 [ct0]) entity0.pk_import
            [ct0]).map extOK.serialize ++
         (classtypeDefinitions extOK (extOK.extract entity0 [ct0]) entity0.pk_import
            [ct0]).map extOK.serialize ++
         [extOK.serialize (assembledRecord extOK entity0 [ct0])]) :=
  C4_kernel_artifact extOK translator0 entity0 [ct0] _ _ _ _ rfl

/-- Claim C5: for every compilation that succeeds, the binding source
artifact begins with the generator-stamp comment line, then the include
block listing in fixed order the pybind11 header, the Kokkos core header,
the Kokkos sort header, the three standard utility headers and finally the
kernel artifact's own file name, followed by the binding fragments. -/
theorem C5_binding_artifact (ext : Externals) (t : StaticTranslator)
    (entity : PyKokkosEntity) (classtypes : List PyKokkosEntity)
    (functor bindings : List String) (t' : StaticTranslator) (tr : List Step)
    (h : translate ext t entity classtypes = (Except.ok (functor, bindings), t', tr)) :
    bindings = generate_header :: generate_includes t.functor_file ::
        bindingFragments ext t.module_file entity classtypes ∧
    generate_includes t.functor_file =
      "#include <pybind11/pybind11.h>\n#include <Kokkos_Core.hpp>\n#include <Kokkos_Sort.hpp>\n#include <fstream>\n#include <iostream>\n#include <cmath>\n" ++
        ("#include <" ++ t.functor_file ++ ">\n") := by
  refine ⟨?_, generate_includes_spec t.functor_file⟩
  rcases hc : (check_symbols ext (ext.extract entity classtypes) entity.pk_import
      entity.path classtypes).1 with _ | ⟨e, es⟩
  case cons => simp [translate, hc] at h
  case nil =>
    rcases hwres : (translate_workunits ext (ext.extract entity classtypes)
        entity.pk_import).1 with we | ws
    · simp [translate, hc, hwres] at h
    · simp only [translate, hc, hwres, Prod.mk.injEq, Except.ok.injEq] at h
      obtain ⟨⟨hF, hB⟩, -, -⟩ := h
      rw [← hB, bindingFragments]
      simp [hwres]

/-- Witness for claim C5: the concrete successful compilation's binding
artifact, with its include block spelled out. -/
theorem C5_witness :
    ["// ******* AUTOMATICALLY GENERATED BY PyKokkos *******",
        generate_includes "functor.hpp", "binding_main"] =
      generate_header :: generate_includes "functor.hpp" ::
        bindingFragments extOK "kernel_module" entity0 [ct0] ∧
    generate_includes "functor.hpp" =
      "#include <pybind11/pybind11.h>\n#include <Kokkos_Core.hpp>\n#include <Kokkos_Sort.hpp>\n#include <fstream>\n#include <iostream>\n#include <cmath>\n" ++
        ("#include <" ++ "functor.hpp" ++ ">\n") :=
  C5_binding_artifact extOK translator0 entity0 [ct0] _ _ _ _ rfl

/-- Claim C6: every invocation of `translate` performs the pipeline steps
in the fixed linear order link-parents, extract-members, validate-symbols,
translate-classtypes, translate-functions, translate-workunits,
assemble-functor, generate-bindings, serialize; a run that terminates at
symbol validation or at a workunit fault stops after a prefix, a
successful run performs all nine exactly once, no step is revisited, and
the result is independent of any translator state left over from an
earlier compilation (the per-compilation attributes are reassigned). -/
theorem C6_linear_pipeline (ext : Externals) (t : StaticTranslator)
    (entity : PyKokkosEntity) (classtypes : List PyKokkosEntity) :
    ((translate ext t entity classtypes).2.2 = pipelineOrder ∨
     (translate ext t entity classtypes).2.2 = pipelineOrder.take 3 ∨
     (translate ext t entity classtypes).2.2 = pipelineOrder.take 6) ∧
    (∀ out, (translate ext t entity classtypes).1 = Except.ok out →
      (translate ext t entity classtypes).2.2 = pipelineOrder) ∧
    (translate ext t entity classtypes).2.2.Nodup ∧
    (∀ pi pm, translate ext { t with pk_import := pi, pk_members := pm } entity classtypes =
      translate ext t entity classtypes) := by
  have htr : (translate ext t entity classtypes).2.2 = pipelineOrder ∨
      (translate ext t entity classtypes).2.2 = pipelineOrder.take 3 ∨
      (translate ext t entity classtypes).2.2 = pipelineOrder.take 6 := by
    rcases hc : (check_symbols ext (ext.extract entity classtypes) entity.pk_import
        entity.path classtypes).1 with _ | ⟨e, es⟩
    · rcases hwres : (translate_workunits ext (ext.extract entity classtypes)
          entity.pk_import).1 with we | ws
      · right; right; simp [translate, hc, hwres]
      · left; simp [translate, hc, hwres]
    · right; left; simp [translate, hc]
  refine ⟨htr, ?_, ?_, ?_⟩
  · intro out hout
    rcases hc : (check_symbols ext (ext.extract entity classtypes) entity.pk_import
        entity.path classtypes).1 with _ | ⟨e, es⟩
    · rcases hwres : (translate_workunits ext (ext.extract entity classtypes)
          entity.pk_import).1 with we | ws
      · simp [translate, hc, hwres] at hout
      · simp [translate, hc, hwres]
    · simp [translate, hc] at hout
  · rcases htr with h | h | h <;> rw [h] <;> decide
  · intro pi pm
    rfl

/-- Witness for claim C6: the concrete successful compilation runs all
nine steps, and stale per-compilation state does not change the result. -/
theorem C6_witness :
    (translate extOK translator0 entity0 [ct0]).2.2 = pipelineOrder ∧
    translate extOK
        { translator0 with pk_import := some "stale", pk_members := some members0 }
        entity0 [ct0] =
      translate extOK translator0 entity0 [ct0] :=
  ⟨(C6_linear_pipeline extOK translator0 entity0 [ct0]).2.1 _ rfl,
   (C6_linear_pipeline extOK translator0 entity0 [ct0]).2.2.2 (some "stale") (some members0)⟩

/-- Claim C1 counterexample: the forward declaration produced by
`translate_classtypes` for the concrete classtype `ct0` — whose visited
definition `rec0` has a method with a nonempty body — retains that method
body, so it is not the claimed value (the definition with the flag flipped
and the method bodies omitted). -/
theorem C1_counterexample :
    translate_classtypes extOK members0 "pk" [ct0] =
      [{ rec0 with is_definition := false }, rec0] ∧
    { rec0 with is_definition := false } ≠ specForwardDeclaration rec0 := by
  exact ⟨rfl, by decide⟩

/-- Claim C1 (amended): for every classtype translated, the forward
declaration equals the full definition with only the definition flag
flipped — member bodies are retained unchanged in the IR, their omission
being the serializer's doing — and serializing both and re-parsing their
signatures yields matching signatures. -/
theorem C1_forward_declaration_roundtrip (ext : Externals) (members : PyKokkosMembers)
    (pk_import : String) (classtypes : List PyKokkosEntity) :
    translate_classtypes ext members pk_import classtypes =
      (classtypeDefinitions ext members pk_import classtypes).map
        (fun d => { d with is_definition := false }) ++
      classtypeDefinitions ext members pk_import classtypes ∧
    ∀ d ∈ classtypeDefinitions ext members pk_import classtypes,
      parseSignature (serializeRecord { d with is_definition := false }) =
        parseSignature (serializeRecord d) := by
  constructor
  · rw [translate_classtypes_eq]; rfl
  · intro d hd
    rcases d with ⟨n, flds, ms, b⟩
    cases b <;> simp [serializeRecord, parseSignature]

/-- Witness for the amended claim C1 at the concrete classtype `ct0`. -/
theorem C1_witness :
    translate_classtypes extOK members0 "pk" [ct0] =
      [{ rec0 with is_definition := false }, rec0] ∧
    parseSignature (serializeRecord { rec0 with is_definition := false }) =
      parseSignature (serializeRecord rec0) :=
  ⟨(C1_forward_declaration_roundtrip extOK members0 "pk" [ct0]).1,
   (C1_forward_declaration_roundtrip extOK members0 "pk" [ct0]).2 rec0 (by decide)⟩

/-! Helper lemmas for the heap-level deep-copy model. -/

theorem lookupNode_lt (h : Heap) (a : Nat) (node : HeapNode)
    (hl : lookupNode h a = some node) : a < h.length := by
  by_contra hn
  rw [lookupNode, List.getElem?_eq_none (Nat.le_of_not_lt hn)] at hl
  cases hl

theorem lookupNode_append (h tl : Heap) (b : Nat) (hb : b < h.length) :
    lookupNode (h ++ tl) b = lookupNode h b := by
  rw [lookupNode, lookupNode, List.getElem?_append_left hb]

theorem lookupNode_append_right (h : Heap) (x : HeapNode) :
    lookupNode (h ++ [x]) h.length = some x := by
  rw [lookupNode, List.getElem?_append_right (Nat.le_refl _)]
  simp

theorem heapWF_members (h : Heap) (hw : heapWF h) (a : Nat) (node : HeapNode)
    (hl : lookupNode h a = some node) : ∀ m ∈ node.members, m < a := by
  obtain ⟨ha, hget⟩ := List.getElem?_eq_some_iff.mp hl
  have := hw ⟨a, ha⟩
  rw [List.get_eq_getElem, hget] at this
  exact this

theorem regionWF_trivial (h : Heap) : regionWF h.length h := by
  intro b node hb hnb
  have := lookupNode_lt h b node hb
  omega

theorem deepcopyMembers_spec (copyFn : Heap → Nat → Option (Heap × Nat))
    (hnode : ∀ (n : Nat) (h : Heap) (a : Nat) (h1 : Heap) (a1 : Nat),
      n ≤ h.length → regionWF n h → copyFn h a = some (h1, a1) →
      (∃ tl, h1 = h ++ tl) ∧ h.length ≤ a1 ∧ a1 < h1.length ∧ regionWF n h1) :
    ∀ (l : List Nat) (n : Nat) (h h1 : Heap) (ms : List Nat), n ≤ h.length → regionWF n h →
      deepcopyMembers copyFn h l = some (h1, ms) →
      (∃ tl, h1 = h ++ tl) ∧ (∀ m ∈ ms, h.length ≤ m ∧ m < h1.length) ∧ regionWF n h1 := by
  intro l
  induction l with
  | nil =>
    intro n h h1 ms hn hr hd
    simp only [deepcopyMembers, Option.some.injEq, Prod.mk.injEq] at hd
    obtain ⟨rfl, rfl⟩ := hd
    exact ⟨⟨[], by simp⟩, by simp, hr⟩
  | cons b rest ih =>
    intro n h h1 ms hn hr hd
    cases hdn : copyFn h b with
    | none =>
      simp only [deepcopyMembers, hdn] at hd
      cases hd
    | some p =>
      obtain ⟨hb, b'⟩ := p
      cases hdl : deepcopyMembers copyFn hb rest with
      | none =>
        simp only [deepcopyMembers, hdn, hdl] at hd
        cases hd
      | some q =>
        obtain ⟨h2, rest'⟩ := q
        simp only [deepcopyMembers, hdn, hdl, Option.some.injEq, Prod.mk.injEq] at hd
        obtain ⟨rfl, rfl⟩ := hd
        obtain ⟨⟨tl1, rfl⟩, hb1, hb2, hrb⟩ := hnode n h b hb b' hn hr hdn
        have hn2 : n ≤ (h ++ tl1).length := by simp; omega
        obtain ⟨⟨tl2, rfl⟩, hms, hr2⟩ := ih n (h ++ tl1) _ _ hn2 hrb hdl
        refine ⟨⟨tl1 ++ tl2, by simp⟩, ?_, hr2⟩
        intro m hm
        rcases List.mem_cons.mp hm with rfl | hm'
        · constructor
          · exact hb1
          · have : ((h ++ tl1).length : Nat) ≤ ((h ++ tl1) ++ tl2).length := by simp
            omega
        · have := hms m hm'
          simp only [List.length_append] at this ⊢
          omega

theorem deepcopyNode_spec : ∀ (fuel n : Nat) (h : Heap) (a : Nat) (h1 : Heap) (a1 : Nat),
    n ≤ h.length → regionWF n h → deepcopyNode fuel h a = some (h1, a1) →
    (∃ tl, h1 = h ++ tl) ∧ h.length ≤ a1 ∧ a1 < h1.length ∧ regionWF n h1 := by
  intro fuel
  induction fuel with
  | zero =>
    intro n h a h1 a1 _ _ hd
    simp only [deepcopyNode] at hd
    cases hd
  | succ fuel ih =>
    intro n h a h1 a1 hn hr hd
    cases hl : lookupNode h a with
    | none =>
      simp only [deepcopyNode, hl] at hd
      cases hd
    | some node =>
      cases hdl : deepcopyMembers (deepcopyNode fuel) h node.members with
      | none =>
        simp only [deepcopyNode, hl, hdl] at hd
        cases hd
      | some p =>
        obtain ⟨hm, ms⟩ := p
        simp only [deepcopyNode, hl, hdl, Option.some.injEq, Prod.mk.injEq] at hd
        obtain ⟨rfl, rfl⟩ := hd
        obtain ⟨⟨tl, rfl⟩, hms, hrm⟩ :=
          deepcopyMembers_spec (deepcopyNode fuel) ih node.members n h _ _ hn hr hdl
        refine ⟨⟨tl ++ [{ node with members := ms }], by simp⟩, by simp, by simp, ?_⟩
        intro b nd hb hnb m hmm
        rcases Nat.lt_trichotomy b (h ++ tl).length with hblt | hbeq | hbgt
        · rw [lookupNode_append _ _ _ hblt] at hb
          exact hrm b nd hb hnb m hmm
        · subst hbeq
          rw [lookupNode_append_right] at hb
          injection hb with hb
          subst hb
          have := hms m hmm
          constructor
          · omega
          · exact this.2
        · have := lookupNode_lt _ _ _ hb
          simp only [List.length_append, List.length_cons, List.length_nil] at this hbgt
          omega

theorem setFlag_lookup_ne (h : Heap) (a : Nat) (v : Bool) (b : Nat) (hba : b ≠ a) :
    lookupNode (setDefinitionFlag h a v) b = lookupNode h b := by
  rw [setDefinitionFlag]
  cases hl : lookupNode h a with
  | none => rfl
  | some node =>
    rw [lookupNode, lookupNode, List.getElem?_set_ne (fun heq => hba heq.symm)]

theorem setFlag_lookup_eq (h : Heap) (a : Nat) (v : Bool) (node : HeapNode)
    (hl : lookupNode h a = some node) :
    lookupNode (setDefinitionFlag h a v) a = some { node with is_definition := v } := by
  have ha := lookupNode_lt h a node hl
  rw [setDefinitionFlag, hl, lookupNode, List.getElem?_set_self ha]

theorem regionWF_setFlag (n : Nat) (h : Heap) (a : Nat) (v : Bool) (hr : regionWF n h) :
    regionWF n (setDefinitionFlag h a v) := by
  intro b nd hb hnb m hm
  by_cases hba : b = a
  · subst hba
    cases hl : lookupNode h b with
    | none => rw [setDefinitionFlag, hl] at hb; exact hr b nd hb hnb m hm
    | some node0 =>
      rw [setFlag_lookup_eq h b v node0 hl] at hb
      injection hb with hb
      subst hb
      exact hr b node0 hl hnb m hm
  · rw [setFlag_lookup_ne _ _ _ _ hba] at hb
    exact hr b nd hb hnb m hm

theorem reachSet_le (H : Heap) (hr : regionWF 0 H) :
    ∀ (fuel a b : Nat), b ∈ reachSet fuel H a → b ≤ a := by
  intro fuel
  induction fuel with
  | zero => intro a b hb; cases hb
  | succ fuel ih =>
    intro a b hb
    simp only [reachSet] at hb
    cases hl : lookupNode H a with
    | none =>
      rw [hl] at hb
      rcases List.mem_singleton.mp hb with rfl
      exact Nat.le_refl _
    | some node =>
      rw [hl] at hb
      rcases List.mem_cons.mp hb with rfl | hb'
      · exact Nat.le_refl _
      · obtain ⟨m, hm, hbm⟩ := List.mem_flatMap.mp hb'
        have h1 := ih m b hbm
        have h2 := (hr a node hl (Nat.zero_le _) m hm).2
        omega

theorem reachSet_ge (H : Heap) (n : Nat) (hr : regionWF n H) :
    ∀ (fuel a b : Nat), n ≤ a → b ∈ reachSet fuel H a → n ≤ b := by
  intro fuel
  induction fuel with
  | zero => intro a b _ hb; cases hb
  | succ fuel ih =>
    intro a b ha hb
    simp only [reachSet] at hb
    cases hl : lookupNode H a with
    | none =>
      rw [hl] at hb
      rcases List.mem_singleton.mp hb with rfl
      exact ha
    | some node =>
      rw [hl] at hb
      rcases List.mem_cons.mp hb with rfl | hb'
      · exact ha
      · obtain ⟨m, hm, hbm⟩ := List.mem_flatMap.mp hb'
        exact ih m b (hr a node hl ha m hm).1 hbm

/-- Claim C10: the forward declaration is produced as a deep copy of the
full definition, so the two IR trees share no nodes: setting
`is_definition` to `False` on the declaration leaves the definition
object — its `is_definition` flag and every one of its members — and in
fact every pre-existing object unchanged, and no address reachable from
the definition is reachable from the declaration. -/
theorem C10_deepcopy_no_aliasing (fuel : Nat) (h : Heap) (a : Nat) (h2 : Heap) (a1 : Nat)
    (hw : heapWF h)
    (hfd : forwardDeclare fuel h a = some (h2, a1)) :
    a1 ≠ a ∧
    lookupNode h2 a = lookupNode h a ∧
    (∀ node, lookupNode h a = some node →
      ∀ m ∈ node.members, lookupNode h2 m = lookupNode h m) ∧
    (∀ b, b < h.length → lookupNode h2 b = lookupNode h b) ∧
    (∀ f g b, b ∈ reachSet f h2 a → b ∉ reachSet g h2 a1) := by
  cases hdc : deepcopyNode fuel h a with
  | none =>
    simp only [forwardDeclare, hdc] at hfd
    cases hfd
  | some p =>
    obtain ⟨h1, d⟩ := p
    simp only [forwardDeclare, hdc, Option.some.injEq, Prod.mk.injEq] at hfd
    obtain ⟨rfl, rfl⟩ := hfd
    obtain ⟨⟨tl, rfl⟩, hd1, hd2, hr1⟩ :=
      deepcopyNode_spec fuel h.length h a _ _ (Nat.le_refl _) (regionWF_trivial h) hdc
    have halt : a < h.length := by
      cases fuel with
      | zero =>
        simp only [deepcopyNode] at hdc
        cases hdc
      | succ fuel =>
        cases hl : lookupNode h a with
        | none =>
          simp only [deepcopyNode, hl] at hdc
          cases hdc
        | some node => exact lookupNode_lt h a node hl
    have hframe : ∀ b, b < h.length →
        lookupNode (setDefinitionFlag (h ++ tl) d false) b = lookupNode h b := by
      intro b hb
      rw [setFlag_lookup_ne _ _ _ _ (by omega), lookupNode_append _ _ _ hb]
    have hr2 : regionWF h.length (setDefinitionFlag (h ++ tl) d false) :=
      regionWF_setFlag _ _ _ _ hr1
    have hr0 : regionWF 0 (setDefinitionFlag (h ++ tl) d false) := by
      intro b nd hb _ m hm
      refine ⟨Nat.zero_le _, ?_⟩
      by_cases hbl : b < h.length
      · rw [hframe b hbl] at hb
        exact heapWF_members h hw b nd hb m hm
      · exact (hr2 b nd hb (by omega) m hm).2
    refine ⟨by omega, hframe a halt, ?_, hframe, ?_⟩
    · intro node hnode m hm
      exact hframe m (by have := heapWF_members h hw a node hnode m hm; omega)
    · intro f g b hba hba1
      have hlow : b ≤ a := reachSet_le _ hr0 f a b hba
      have hhigh : h.length ≤ b := reachSet_ge _ h.length hr2 g d b hd1 hba1
      omega

/-- Witness for claim C10 at the concrete two-node heap `heap0`: the
declaration of node 1 (`Point`) lands at fresh address 3 and the
definition at address 1 is untouched by the flag assignment. -/
theorem C10_witness :
    (3 : Nat) ≠ 1 ∧
    lookupNode
        [{ label := "member", is_definition := true, members := [] },
         { label := "Point", is_definition := true, members := [0] },
         { label := "member", is_definition := true, members := [] },
         { label := "Point", is_definition := false, members := [2] }] 1 =
      lookupNode heap0 1 :=
  ⟨(C10_deepcopy_no_aliasing 2 heap0 1 _ 3 (by decide) rfl).1,
   (C10_deepcopy_no_aliasing 2 heap0 1 _ 3 (by decide) rfl).2.1⟩

end PkStatic
